import Mathlib

/-!
Verification of the sqlar compress/uncompress extension
(`ext/misc/sqlar.c`): the SQL functions `sqlar_compress(X,#)` and
`sqlar_uncompress(X,SZ)`.

The build under verification is the default one (`COMPRESS_ZLIB` is
undefined at the top of the file), so the zstd branch of every `#ifdef`
is the code modelled here: the signature check is
`nData<=4 || pData[0] != MAGIC_ZSTD_0` with `MAGIC_ZSTD_0 = 0x28`, and
levels are normalised with `ZSTD_CLEVEL_DEFAULT` / `ZSTD_maxCLevel()`.

The compression engine itself (zstd) is an external collaborator, not
repository code, so it is abstracted as a `Codec` structure: a bound
function, fallible compress/decompress routines, the default and maximum
levels, and the magic-byte data.  `sqlite3_malloc` may fail, which the
code surfaces via `sqlite3_result_error_nomem`; allocation is modelled
by an oracle `allocOk : Nat → Bool` in the environment.
-/

/-- A byte, modelled as a natural number (the code never does byte
arithmetic, only equality comparison against the magic byte). -/
abbrev Byte := Nat

/-- An SQLite value as seen through `sqlite3_value_type`: the code only
distinguishes `SQLITE_BLOB` from everything else. -/
inductive SqlValue where
  | blob (bytes : List Byte)
  | text (s : String)
  | int (i : Int)
  | null
deriving DecidableEq

/-- The outcome of a `sqlite3_context` result call: `ok` for
`sqlite3_result_blob`/`sqlite3_result_value`, `errNoMem` for
`sqlite3_result_error_nomem`, `err` for `sqlite3_result_error`. -/
inductive Result where
  | ok (v : SqlValue)
  | errNoMem
  | err (msg : String)
deriving DecidableEq

/-- The external compression engine (zstd in the default build).  Only
its interface is fixed by the repository; its behaviour is a parameter. -/
structure Codec where
  /-- `ZSTD_compressBound`: worst-case compressed size for an input size. -/
  compressBound : Nat → Nat
  /-- `ZSTD_compress` into a large-enough buffer: `none` models
  `ZSTD_isError` on the returned code, `some out` the written bytes. -/
  compress : List Byte → Int → Option (List Byte)
  /-- `ZSTD_decompress` with a capacity-`cap` output buffer: `none`
  models `ZSTD_isError`, `some out` the bytes actually written. -/
  decompress : List Byte → Nat → Option (List Byte)
  /-- `ZSTD_CLEVEL_DEFAULT`. -/
  defaultLevel : Int
  /-- `ZSTD_maxCLevel()`. -/
  maxLevel : Int
  /-- `MAGIC_ZSTD_0`, the single magic byte the code compares against. -/
  magic0 : Byte
  /-- The codec's full magic-byte prefix (`28 b5 2f fd` for zstd); the
  source records it in a comment but only ever compares `magic0`. -/
  magic : List Byte
  /-- The signature length hardcoded in the decoder's guard
  (`nData<=4` in the zstd branch). -/
  sigLen : Nat

/-- The environment of one call: the codec and the allocator's
behaviour (`allocOk n` tells whether `sqlite3_malloc` of `n` bytes
returns a non-null pointer). -/
structure Env where
  codec : Codec
  allocOk : Nat → Bool

/-- Level normalisation performed by `sqlarCompressFunc` before calling
the codec:

    if( lvl == -1 )               lvl = ZSTD_CLEVEL_DEFAULT;
    else if( lvl > ZSTD_maxCLevel() ) lvl = ZSTD_maxCLevel();
-/
def sqlarLevel (c : Codec) (lvl : Int) : Int :=
  if lvl = -1 then c.defaultLevel
  else if lvl > c.maxLevel then c.maxLevel
  else lvl

/-- `sqlarCompressFunc`, the implementation of `sqlar_compress(X,#)`.
Non-blob arguments are returned unchanged.  For a blob: normalise the
level, allocate a `compressBound`-sized scratch buffer (error-nomem on
failure), run the codec (surfacing a codec error as
"error in compress()"), and return the compressed bytes only when they
are strictly shorter than the input and the normalised level is not 0;
otherwise return the original value. -/
def sqlarCompressFunc (env : Env) (x : SqlValue) (levelArg : Int) : Result :=
  match x with
  | SqlValue.blob pData =>
      if env.allocOk (env.codec.compressBound pData.length) then
        match env.codec.compress pData (sqlarLevel env.codec levelArg) with
        | none => Result.err "error in compress()"
        | some out =>
            if out.length < pData.length ∧ sqlarLevel env.codec levelArg ≠ 0 then
              Result.ok (SqlValue.blob out)
            else
              Result.ok (SqlValue.blob pData)
      else
        Result.errNoMem
  | v => Result.ok v

/-- `sqlarUncompressFunc`, the implementation of `sqlar_uncompress(X,SZ)`,
on a blob payload.  If `SZ <= 0` or `SZ` equals the payload length the
payload is returned unchanged.  Otherwise an `SZ`-byte output buffer is
allocated (error-nomem on failure); then, if the payload is no longer
than the signature length or its first byte is not the magic byte, the
payload is returned unchanged; otherwise the codec decompresses it
(surfacing a codec error as "error in uncompress()") and the written
bytes are returned. -/
def sqlarUncompressFunc (env : Env) (pData : List Byte) (sz : Int) : Result :=
  if sz ≤ 0 ∨ sz = (pData.length : Int) then
    Result.ok (SqlValue.blob pData)
  else if env.allocOk sz.toNat then
    if pData.length ≤ env.codec.sigLen ∨ pData.head? ≠ some env.codec.magic0 then
      Result.ok (SqlValue.blob pData)
    else
      match env.codec.decompress pData sz.toNat with
      | none => Result.err "error in uncompress()"
      | some out => Result.ok (SqlValue.blob out)
  else
    Result.errNoMem

/-- Zstd's four magic bytes `28 b5 2f fd`, as listed in the source's
header comment. -/
def zstdMagic : List Byte := [0x28, 0xb5, 0x2f, 0xfd]

/-- A small executable codec used to instantiate theorems: it emits the
zstd magic followed by either a run-length pair (for constant payloads)
or the raw payload. -/
def rleCompress (P : List Byte) (lvl : Int) : Option (List Byte) :=
  match lvl, P with
  | _, [] => some zstdMagic
  | _, b :: _ =>
      if P.all (fun a => a = b) then some (zstdMagic ++ [P.length, b])
      else some (zstdMagic ++ P)

/-- Inverse of `rleCompress` on its run-length outputs; like real zstd
it reports an error on input that does not carry the full magic. -/
def rleDecompress (C : List Byte) (cap : Nat) : Option (List Byte) :=
  if C.take 4 = zstdMagic then
    match C.drop 4 with
    | [n, b] => if n ≤ cap then some (List.replicate n b) else none
    | rest => if rest.length ≤ cap then some rest else none
  else none

/-- A concrete codec with zstd's constants (default level 3, maximum
level 22, magic byte 0x28, four-byte signature). -/
def testCodec : Codec where
  compressBound := fun n => n + 6
  compress := rleCompress
  decompress := rleDecompress
  defaultLevel := 3
  maxLevel := 22
  magic0 := 0x28
  magic := zstdMagic
  sigLen := 4

/-- Environment with the concrete codec and an allocator that always
succeeds. -/
def testEnv : Env where
  codec := testCodec
  allocOk := fun _ => true

/-- Environment whose codec always reports a compression error. -/
def failEnv : Env where
  codec :=
    { testCodec with
        compress := fun _ _ => none
        decompress := fun _ _ => none }
  allocOk := fun _ => true

/-- Environment whose allocator always fails (and whose codec always
errors, to witness that pass-through paths consult neither). -/
def noAllocEnv : Env where
  codec :=
    { testCodec with
        compress := fun _ _ => none
        decompress := fun _ _ => none }
  allocOk := fun _ => false

/-- With a non-negative maximum level (true of both real codecs), the
store sentinel 0 is left unchanged by level normalisation. -/
theorem sqlarLevel_zero (c : Codec) (hmax : 0 ≤ c.maxLevel) : sqlarLevel c 0 = 0 := by
  unfold sqlarLevel
  rw [if_neg (by decide), if_neg (by omega)]

/-- Claim C5: whenever the declared size is non-positive or equals the
payload length, `sqlar_uncompress` returns the payload unchanged.  The
conclusion holds for every environment — in particular for one whose
allocator always fails and whose codec always errors — so neither the
output buffer allocation nor the decompression routine is consulted. -/
theorem sqlar_uncompress_passthrough (env : Env) (P : List Byte) (sz : Int)
    (h : sz ≤ 0 ∨ sz = (P.length : Int)) :
    sqlarUncompressFunc env P sz = Result.ok (SqlValue.blob P) := by
  unfold sqlarUncompressFunc
  rw [if_pos h]

theorem sqlar_uncompress_passthrough_witness :
    sqlarUncompressFunc noAllocEnv [1, 2, 3] 3 = Result.ok (SqlValue.blob [1, 2, 3]) ∧
    sqlarUncompressFunc noAllocEnv [1, 2, 3] 0 = Result.ok (SqlValue.blob [1, 2, 3]) ∧
    sqlarUncompressFunc noAllocEnv [1, 2, 3] (-5) = Result.ok (SqlValue.blob [1, 2, 3]) :=
  ⟨sqlar_uncompress_passthrough noAllocEnv [1, 2, 3] 3 (Or.inr (by decide)),
   sqlar_uncompress_passthrough noAllocEnv [1, 2, 3] 0 (Or.inl (by decide)),
   sqlar_uncompress_passthrough noAllocEnv [1, 2, 3] (-5) (Or.inl (by decide))⟩

/-- Claim C4: with level 0 (the store sentinel), whenever the scratch
allocation and the codec call succeed, `sqlar_compress` returns the
payload unchanged, whatever the codec produced. -/
theorem sqlar_compress_store_sentinel (env : Env) (P C : List Byte)
    (hmax : 0 ≤ env.codec.maxLevel)
    (halloc : env.allocOk (env.codec.compressBound P.length) = true)
    (hc : env.codec.compress P 0 = some C) :
    sqlarCompressFunc env (SqlValue.blob P) 0 = Result.ok (SqlValue.blob P) := by
  simp only [sqlarCompressFunc]
  rw [sqlarLevel_zero env.codec hmax, halloc, if_pos rfl, hc]
  simp

theorem sqlar_compress_store_sentinel_witness :
    sqlarCompressFunc testEnv (SqlValue.blob (List.replicate 8 7)) 0 =
      Result.ok (SqlValue.blob (List.replicate 8 7)) :=
  sqlar_compress_store_sentinel testEnv (List.replicate 8 7) (zstdMagic ++ [8, 7])
    (by decide) rfl (by decide)

/-- Claim C7: when the codec reports a compression error,
`sqlar_compress` surfaces it as the SQL error "error in compress()"
rather than returning any blob. -/
theorem sqlar_compress_error_propagates (env : Env) (P : List Byte) (L : Int)
    (halloc : env.allocOk (env.codec.compressBound P.length) = true)
    (hc : env.codec.compress P (sqlarLevel env.codec L) = none) :
    sqlarCompressFunc env (SqlValue.blob P) L = Result.err "error in compress()" := by
  simp only [sqlarCompressFunc]
  rw [halloc, if_pos rfl, hc]

theorem sqlar_compress_error_propagates_witness :
    sqlarCompressFunc failEnv (SqlValue.blob [1, 2, 3]) 3 = Result.err "error in compress()" :=
  sqlar_compress_error_propagates failEnv [1, 2, 3] 3 rfl rfl

/-- Claim C10: with a positive declared size different from the payload
length, the output buffer is allocated before the signature is
inspected, so an allocation failure is surfaced as out-of-memory even
when the payload's first byte is not the magic byte (a payload that
would otherwise be passed through unchanged). -/
theorem sqlar_uncompress_alloc_before_sig (env : Env) (P : List Byte) (N : Int)
    (hN : 0 < N) (hne : N ≠ (P.length : Int))
    (halloc : env.allocOk N.toNat = false)
    (hsig : P.head? ≠ some env.codec.magic0) :
    sqlarUncompressFunc env P N = Result.errNoMem := by
  unfold sqlarUncompressFunc
  rw [if_neg, halloc]
  · simp
  · push_neg
    exact ⟨by omega, hne⟩

theorem sqlar_uncompress_alloc_before_sig_witness :
    sqlarUncompressFunc noAllocEnv [9, 9, 9] 10 = Result.errNoMem :=
  sqlar_uncompress_alloc_before_sig noAllocEnv [9, 9, 9] 10 (by decide) (by decide)
    rfl (by decide)

/-- Unfolding of `sqlarCompressFunc` on a blob once the scratch
allocation is known to succeed. -/
theorem sqlarCompressFunc_blob_eq (env : Env) (P : List Byte) (L : Int)
    (halloc : env.allocOk (env.codec.compressBound P.length) = true) :
    sqlarCompressFunc env (SqlValue.blob P) L =
      match env.codec.compress P (sqlarLevel env.codec L) with
      | none => Result.err "error in compress()"
      | some out =>
          if out.length < P.length ∧ sqlarLevel env.codec L ≠ 0 then
            Result.ok (SqlValue.blob out)
          else Result.ok (SqlValue.blob P) := by
  simp only [sqlarCompressFunc]
  rw [halloc, if_pos rfl]

/-- Claim C3: when compression succeeds, `sqlar_compress` returns the
compressed buffer exactly when it is strictly shorter than the input
and the normalised level is not the store sentinel 0; in every other
case it returns the original payload unchanged. -/
theorem sqlar_compress_decision (env : Env) (P : List Byte) (L : Int) (C : List Byte)
    (halloc : env.allocOk (env.codec.compressBound P.length) = true)
    (hc : env.codec.compress P (sqlarLevel env.codec L) = some C) :
    sqlarCompressFunc env (SqlValue.blob P) L =
      if C.length < P.length ∧ sqlarLevel env.codec L ≠ 0 then
        Result.ok (SqlValue.blob C)
      else Result.ok (SqlValue.blob P) := by
  rw [sqlarCompressFunc_blob_eq env P L halloc, hc]

theorem sqlar_compress_decision_witness :
    sqlarCompressFunc testEnv (SqlValue.blob (List.replicate 8 7)) 3 =
      if (zstdMagic ++ [8, 7]).length < (List.replicate 8 7 : List Byte).length ∧
          sqlarLevel testEnv.codec 3 ≠ 0 then
        Result.ok (SqlValue.blob (zstdMagic ++ [8, 7]))
      else Result.ok (SqlValue.blob (List.replicate 8 7)) :=
  sqlar_compress_decision testEnv (List.replicate 8 7) 3 (zstdMagic ++ [8, 7])
    rfl (by decide)

/-- Claim C6: a requested level above the codec maximum behaves exactly
like the maximum level (the two calls are equal in every environment and
on every argument), and the -1 sentinel is replaced by the codec's
default level by the normalisation the encoder applies before
compressing.  The hypothesis `0 ≤ maxLevel` holds for both real codecs
(zstd maximum 22, zlib maximum 9). -/
theorem sqlar_compress_level_clamp (env : Env) (x : SqlValue) (L : Int)
    (hmax : 0 ≤ env.codec.maxLevel) (hL : env.codec.maxLevel < L) :
    sqlarCompressFunc env x L = sqlarCompressFunc env x env.codec.maxLevel ∧
    sqlarLevel env.codec (-1) = env.codec.defaultLevel := by
  have hlev : sqlarLevel env.codec L = sqlarLevel env.codec env.codec.maxLevel := by
    unfold sqlarLevel
    rw [if_neg (by omega), if_pos (by omega), if_neg (by omega), if_neg (by omega)]
  refine ⟨?_, by unfold sqlarLevel; rw [if_pos rfl]⟩
  cases x <;> simp only [sqlarCompressFunc, hlev]

theorem sqlar_compress_level_clamp_witness :
    sqlarCompressFunc testEnv (SqlValue.blob (List.replicate 8 7)) 100 =
      sqlarCompressFunc testEnv (SqlValue.blob (List.replicate 8 7)) testEnv.codec.maxLevel ∧
    sqlarLevel testEnv.codec (-1) = testEnv.codec.defaultLevel :=
  sqlar_compress_level_clamp testEnv (SqlValue.blob (List.replicate 8 7)) 100
    (by decide) (by decide)

/-- Claim C9: with level 0 the codec is still invoked, so a codec error
is surfaced as "error in compress()" even at level 0, while every
successful level-0 call returns the payload unchanged whatever the
codec produced. -/
theorem sqlar_compress_level0_invokes_codec (env : Env) (P : List Byte)
    (hmax : 0 ≤ env.codec.maxLevel)
    (halloc : env.allocOk (env.codec.compressBound P.length) = true) :
    (env.codec.compress P 0 = none →
      sqlarCompressFunc env (SqlValue.blob P) 0 = Result.err "error in compress()") ∧
    (∀ C, env.codec.compress P 0 = some C →
      sqlarCompressFunc env (SqlValue.blob P) 0 = Result.ok (SqlValue.blob P)) := by
  have hl : sqlarLevel env.codec 0 = 0 := sqlarLevel_zero env.codec hmax
  constructor
  · intro hc
    rw [sqlarCompressFunc_blob_eq env P 0 halloc, hl, hc]
  · intro C hc
    rw [sqlarCompressFunc_blob_eq env P 0 halloc, hl, hc]
    simp

theorem sqlar_compress_level0_invokes_codec_witness :
    (failEnv.codec.compress [1, 2, 3] 0 = none →
      sqlarCompressFunc failEnv (SqlValue.blob [1, 2, 3]) 0 =
        Result.err "error in compress()") ∧
    (∀ C, failEnv.codec.compress [1, 2, 3] 0 = some C →
      sqlarCompressFunc failEnv (SqlValue.blob [1, 2, 3]) 0 =
        Result.ok (SqlValue.blob [1, 2, 3])) :=
  sqlar_compress_level0_invokes_codec failEnv [1, 2, 3] (by decide) rfl

/-- Claim C8: the empty blob is returned unchanged by `sqlar_compress`
at every level (whenever allocation and the codec call succeed — the
compressed form of the empty input can never be strictly shorter than
zero bytes), and `sqlar_uncompress` of the empty blob with declared
size 0 is the empty blob. -/
theorem sqlar_empty_passthrough (env : Env) (L : Int) (C : List Byte)
    (halloc : env.allocOk (env.codec.compressBound 0) = true)
    (hc : env.codec.compress [] (sqlarLevel env.codec L) = some C) :
    sqlarCompressFunc env (SqlValue.blob []) L = Result.ok (SqlValue.blob []) ∧
    sqlarUncompressFunc env [] 0 = Result.ok (SqlValue.blob []) := by
  constructor
  · rw [sqlarCompressFunc_blob_eq env [] L halloc, hc]
    simp
  · unfold sqlarUncompressFunc
    rw [if_pos (Or.inl le_rfl)]

theorem sqlar_empty_passthrough_witness :
    sqlarCompressFunc testEnv (SqlValue.blob []) 19 = Result.ok (SqlValue.blob []) ∧
    sqlarUncompressFunc testEnv [] 0 = Result.ok (SqlValue.blob []) :=
  sqlar_empty_passthrough testEnv 19 zstdMagic rfl (by decide)

/-- Claim C2 as stated is false: the decoder compares only the first
magic byte (`pData[0] != MAGIC_ZSTD_0`), not the full four-byte prefix.
The payload `[0x28, 0, 0, 0, 0]` does not begin with the full zstd
magic `28 b5 2f fd`, yet with declared size 10 (positive, different
from its length 5) the decompression routine is invoked and — since no
codec can decompress this invalid frame, as modelled by the concrete
codec erroring on a missing full magic — the call raises
"error in uncompress()" instead of returning the payload unchanged. -/
theorem sqlar_uncompress_full_magic_cex :
    (0 : Int) < 10 ∧
    (10 : Int) ≠ (([0x28, 0, 0, 0, 0] : List Byte).length : Int) ∧
    List.take testEnv.codec.magic.length [0x28, 0, 0, 0, 0] ≠ testEnv.codec.magic ∧
    sqlarUncompressFunc testEnv [0x28, 0, 0, 0, 0] 10 ≠
      Result.ok (SqlValue.blob [0x28, 0, 0, 0, 0]) ∧
    sqlarUncompressFunc testEnv [0x28, 0, 0, 0, 0] 10 =
      Result.err "error in uncompress()" := by
  decide

/-- Claim C2 (amended): for `decode(P, N)` with `N > 0`, `N ≠ len(P)`
and the output allocation succeeding, if `P` is at most
signature-length long or its FIRST byte differs from the codec's first
magic byte, the payload is returned unchanged and no decompression
failure can be raised; equivalently, the decompression routine is
consulted only for payloads longer than the signature whose first byte
equals the first magic byte (the code checks only that byte, never the
full prefix). -/
theorem sqlar_uncompress_sig_bypass (env : Env) (P : List Byte) (N : Int)
    (hN : 0 < N) (hne : N ≠ (P.length : Int))
    (halloc : env.allocOk N.toNat = true)
    (hsig : P.length ≤ env.codec.sigLen ∨ P.head? ≠ some env.codec.magic0) :
    sqlarUncompressFunc env P N = Result.ok (SqlValue.blob P) := by
  unfold sqlarUncompressFunc
  rw [if_neg, halloc, if_pos rfl, if_pos hsig]
  push_neg
  exact ⟨by omega, hne⟩

theorem sqlar_uncompress_sig_bypass_witness :
    sqlarUncompressFunc failEnv [0x55, 1, 2, 3, 4, 5] 99 =
      Result.ok (SqlValue.blob [0x55, 1, 2, 3, 4, 5]) :=
  sqlar_uncompress_sig_bypass failEnv [0x55, 1, 2, 3, 4, 5] 99 (by decide) (by decide)
    rfl (by decide)

/-- Claim C1: round-trip.  Assume the allocator succeeds and the codec
is sound on `P` at the normalised level: whenever it compresses `P` to
some `C`, that `C` is longer than the signature, starts with the magic
byte, and decompresses back to exactly `P` within a `len(P)`-capacity
buffer.  Then whatever blob `sqlar_compress(P, L)` returns —
compressed output or `P` itself — feeding it to `sqlar_uncompress`
with declared size `len(P)` recovers `P` exactly. -/
theorem sqlar_round_trip (env : Env) (P : List Byte) (L : Int) (Q : List Byte)
    (hne : P ≠ [])
    (halloc : ∀ n, env.allocOk n = true)
    (hgood : ∀ C, env.codec.compress P (sqlarLevel env.codec L) = some C →
        env.codec.sigLen < C.length ∧ C.head? = some env.codec.magic0 ∧
        env.codec.decompress C P.length = some P)
    (henc : sqlarCompressFunc env (SqlValue.blob P) L = Result.ok (SqlValue.blob Q)) :
    sqlarUncompressFunc env Q (P.length : Int) = Result.ok (SqlValue.blob P) := by
  rw [sqlarCompressFunc_blob_eq env P L (halloc _)] at henc
  cases hc : env.codec.compress P (sqlarLevel env.codec L) with
  | none =>
      rw [hc] at henc
      simp at henc
  | some C =>
      rw [hc] at henc
      obtain ⟨h1, h2, h3⟩ := hgood C hc
      by_cases hcond : C.length < P.length ∧ sqlarLevel env.codec L ≠ 0
      · simp only [if_pos hcond, Result.ok.injEq, SqlValue.blob.injEq] at henc
        subst henc
        obtain ⟨hlt, hlvl⟩ := hcond
        unfold sqlarUncompressFunc
        rw [Int.toNat_natCast, halloc, if_neg, if_pos rfl, if_neg, h3]
        · push_neg
          exact ⟨by omega, h2⟩
        · push_neg
          exact ⟨by omega, by omega⟩
      · simp only [if_neg hcond, Result.ok.injEq, SqlValue.blob.injEq] at henc
        subst henc
        unfold sqlarUncompressFunc
        rw [if_pos (Or.inr rfl)]

theorem sqlar_round_trip_witness :
    sqlarUncompressFunc testEnv (zstdMagic ++ [8, 7])
        (((List.replicate 8 7 : List Byte).length : Int)) =
      Result.ok (SqlValue.blob (List.replicate 8 7)) :=
  sqlar_round_trip testEnv (List.replicate 8 7) 3 (zstdMagic ++ [8, 7])
    (by decide) (fun _ => rfl)
    (fun C hC => by
      rw [show testEnv.codec.compress (List.replicate 8 7) (sqlarLevel testEnv.codec 3) =
          some (zstdMagic ++ [8, 7]) from by decide] at hC
      injection hC with h
      subst h
      decide)
    (by decide)
